import Mathlib

/-!
# Scroll / pointer reactive animation engine of `src/main.js`

A shallow embedding of the stateful parts of `src/main.js`
(the scroll listener, the body of `animate`, and the `main` of
`brainVertexShader`) together with theorems about them.

Number model.  JavaScript and GLSL numbers are floating point.  Two idealised
models are used:

* `JSNum`: exact rationals extended with `+Infinity`, `-Infinity` and `NaN`,
  with the IEEE 754 rules for the special values.  It is used where the
  behaviour of a division by zero is the point (the scroll fraction, and the
  fragment step when the pointer sits on a fragment's centroid).  Rounding,
  overflow and the sign of zero are not modelled.
* an arbitrary linearly ordered field `α` (instantiated at `ℚ` or `ℝ`), i.e.
  exact arithmetic, for the piecewise / algebraic code.  `Math.sqrt` and the
  GLSL `sin` are passed as parameters `sqrt` and `sin`, so every definition is
  computable; theorems that need the square root instantiate `α := ℝ` and
  `sqrt := Real.sqrt`.

three.js is a dependency of the page, not part of `src/main.js`; the `Vector3`
methods the source calls are written out here as three.js defines them.
-/

namespace Portfolio

/-! ## Numbers with the IEEE special values -/

/-- A JavaScript number: a finite value (an exact rational here), one of the
two infinities, or NaN. -/
inductive JSNum where
  | fin (q : ℚ)
  | posInf
  | negInf
  | nan
  deriving DecidableEq, Repr

namespace JSNum

/-- Unary minus. -/
def neg : JSNum → JSNum
  | fin q => fin (-q)
  | posInf => negInf
  | negInf => posInf
  | nan => nan

/-- Addition `a + b`: `Infinity + -Infinity` is NaN. -/
def add : JSNum → JSNum → JSNum
  | nan, _ => nan
  | _, nan => nan
  | fin a, fin b => fin (a + b)
  | fin _, posInf => posInf
  | fin _, negInf => negInf
  | posInf, fin _ => posInf
  | negInf, fin _ => negInf
  | posInf, posInf => posInf
  | negInf, negInf => negInf
  | posInf, negInf => nan
  | negInf, posInf => nan

/-- Subtraction `a - b`. -/
def sub (a b : JSNum) : JSNum := add a (neg b)

/-- An infinity with the sign of `q` times the sign of the given infinity;
`0 * Infinity` is NaN. -/
def scaleInf (q : ℚ) (positive : Bool) : JSNum :=
  if q = 0 then nan
  else if 0 < q then (if positive then posInf else negInf)
  else (if positive then negInf else posInf)

/-- Multiplication `a * b`. -/
def mul : JSNum → JSNum → JSNum
  | nan, _ => nan
  | _, nan => nan
  | fin a, fin b => fin (a * b)
  | fin a, posInf => scaleInf a true
  | fin a, negInf => scaleInf a false
  | posInf, fin b => scaleInf b true
  | negInf, fin b => scaleInf b false
  | posInf, posInf => posInf
  | negInf, negInf => posInf
  | posInf, negInf => negInf
  | negInf, posInf => negInf

/-- Division `a / b`.  A finite non-zero numerator over zero is an infinity
(the zero is taken as `+0`), `0 / 0` and `Infinity / Infinity` are NaN, a
finite numerator over an infinity is zero. -/
def div : JSNum → JSNum → JSNum
  | nan, _ => nan
  | _, nan => nan
  | fin a, fin b =>
      if b = 0 then (if a = 0 then nan else if 0 < a then posInf else negInf)
      else fin (a / b)
  | fin _, posInf => fin 0
  | fin _, negInf => fin 0
  | posInf, fin b => if 0 ≤ b then posInf else negInf
  | negInf, fin b => if 0 ≤ b then negInf else posInf
  | posInf, posInf => nan
  | negInf, negInf => nan
  | posInf, negInf => nan
  | negInf, posInf => nan

instance : Neg JSNum := ⟨neg⟩
instance : Add JSNum := ⟨add⟩
instance : Sub JSNum := ⟨sub⟩
instance : Mul JSNum := ⟨mul⟩
instance : Div JSNum := ⟨div⟩
instance : One JSNum := ⟨fin 1⟩

/-- `Math.sqrt`, given its values on the finite non-negative numbers: NaN on
a negative number, on `-Infinity` and on NaN, `+Infinity` on `+Infinity`. -/
def sqrt (sqrtQ : ℚ → ℚ) : JSNum → JSNum
  | fin q => if q < 0 then nan else fin (sqrtQ q)
  | posInf => posInf
  | negInf => nan
  | nan => nan

/-- The comparison `a < b`, which is false when either side is NaN. -/
def lt : JSNum → JSNum → Bool
  | fin a, fin b => decide (a < b)
  | fin _, posInf => true
  | negInf, fin _ => true
  | negInf, posInf => true
  | _, _ => false

/-- The expression `x || 1` on a number: 1 when `x` is 0 or NaN, else `x`. -/
def orOne : JSNum → JSNum
  | fin q => if q = 0 then fin 1 else fin q
  | nan => fin 1
  | posInf => posInf
  | negInf => negInf

/-- `Math.pow(x, 2)`. -/
def powTwo (x : JSNum) : JSNum := x * x

end JSNum

/-! ## three.js `Vector3` -/

/-- A three.js `Vector3`, over any number type. -/
@[ext]
structure Vector3 (α : Type) where
  x : α
  y : α
  z : α
  deriving DecidableEq, Repr

namespace Vector3

variable {α : Type}

/-- `a.add(b)`: componentwise sum. -/
def add [Add α] (a b : Vector3 α) : Vector3 α :=
  ⟨a.x + b.x, a.y + b.y, a.z + b.z⟩

/-- `a.sub(b)`: componentwise difference. -/
def sub [Sub α] (a b : Vector3 α) : Vector3 α :=
  ⟨a.x - b.x, a.y - b.y, a.z - b.z⟩

/-- `v.multiplyScalar(s)`. -/
def multiplyScalar [Mul α] (v : Vector3 α) (s : α) : Vector3 α :=
  ⟨v.x * s, v.y * s, v.z * s⟩

/-- `v.divideScalar(s)`, which three.js computes as `multiplyScalar(1 / s)`. -/
def divideScalar [Mul α] [Div α] [One α] (v : Vector3 α) (s : α) : Vector3 α :=
  multiplyScalar v (1 / s)

/-- `a.distanceToSquared(b)`: `dx*dx + dy*dy + dz*dz`. -/
def distanceToSquared [Add α] [Sub α] [Mul α] (a b : Vector3 α) : α :=
  (a.x - b.x) * (a.x - b.x) + (a.y - b.y) * (a.y - b.y) + (a.z - b.z) * (a.z - b.z)

/-- `a.distanceTo(b)`: `Math.sqrt(a.distanceToSquared(b))`. -/
def distanceTo [Add α] [Sub α] [Mul α] (sqrt : α → α) (a b : Vector3 α) : α :=
  sqrt (distanceToSquared a b)

/-- `v.length()`: `Math.sqrt(x*x + y*y + z*z)`. -/
def length [Add α] [Mul α] (sqrt : α → α) (v : Vector3 α) : α :=
  sqrt (v.x * v.x + v.y * v.y + v.z * v.z)

/-- The divisor `v.length() || 1` used by `normalize`: the length, or 1 when
the length is zero. -/
def normalizeDivisor [Add α] [Mul α] [Zero α] [One α] [DecidableEq α]
    (sqrt : α → α) (v : Vector3 α) : α :=
  if length sqrt v = 0 then 1 else length sqrt v

/-- Modelled from the spec: `Vector3.normalize` is three.js library code, not
part of the source file.  The spec (section 7a) says a zero-length direction is
replaced by the zero vector; three.js does this as
`divideScalar(length() || 1)`, which is what is written here. -/
def normalize [Add α] [Mul α] [Div α] [Zero α] [One α] [DecidableEq α]
    (sqrt : α → α) (v : Vector3 α) : Vector3 α :=
  divideScalar v (normalizeDivisor sqrt v)

/-- A vector with finite components. -/
def ofRat (v : Vector3 ℚ) : Vector3 JSNum :=
  ⟨JSNum.fin v.x, JSNum.fin v.y, JSNum.fin v.z⟩

end Vector3

/-! ## Scroll listener (`src/main.js`, lines 138-154) -/

/-- The globals written by the scroll listener. -/
structure ScrollState (α : Type) where
  scrollY : α
  scrollEffect : α
  deriving DecidableEq, Repr

/-- The initial values `let scrollY = 0; let scrollEffect = 2;`. -/
def ScrollState.initial {α : Type} [LinearOrderedField α] : ScrollState α :=
  ⟨0, 2⟩

/-- The scroll listener: stores `window.scrollY` and recomputes
`scrollEffect` from it. -/
def onScroll {α : Type} [LinearOrderedField α] (windowScrollY : α)
    (_s : ScrollState α) : ScrollState α :=
  let scrollY := windowScrollY
  let scrollEffect :=
    if scrollY ≤ 2 then 2 - (scrollY / 1)
    else if scrollY ≤ 10 then 1
    else 0
  ⟨scrollY, scrollEffect⟩

/-- The effect strength the listener writes for a given raw offset. -/
def effectStrength {α : Type} [LinearOrderedField α] (rawOffset : α) : α :=
  (onScroll rawOffset ScrollState.initial).scrollEffect

/-! ## Scroll fraction (`animate`, lines 395-398, 450-453, 465-466) -/

/-- `document.documentElement.scrollHeight - window.innerHeight`. -/
def scrollableHeight (scrollHeight innerHeight : JSNum) : JSNum :=
  scrollHeight - innerHeight

/-- `scrollFraction = scrollY / scrollableHeight`, as `animate` computes it
each frame (the same two lines occur three times in `animate`). -/
def scrollFraction (scrollY scrollHeight innerHeight : JSNum) : JSNum :=
  scrollY / scrollableHeight scrollHeight innerHeight

/-! ## Fragment field (`animate`, lines 471-500) -/

section Field

variable {α : Type} [LinearOrderedField α]

/-- One bunny fragment: `mesh.position`, `velocities[index]`,
`mesh.userData.originalPosition` and the vertices of its geometry. -/
structure Fragment (α : Type) where
  position : Vector3 α
  velocity : Vector3 α
  originalPosition : Vector3 α
  positions : List (Vector3 α)

/-- What one frame reads besides the fragment: `mouseSphere.center`,
`scrollEffect`, and the action of `mesh.matrixWorld` on a point (three.js
keeps this matrix; it is taken as an input). -/
structure Tick (α : Type) where
  mouseCenter : Vector3 α
  scrollEffect : α
  matrixWorld : Vector3 α → Vector3 α

/-- Lines 475-482: the sum of the vertices, divided by 3, moved to world
space. -/
def centerPointOf (positions : List (Vector3 α))
    (matrixWorld : Vector3 α → Vector3 α) : Vector3 α :=
  matrixWorld (Vector3.divideScalar (positions.foldl Vector3.add ⟨0, 0, 0⟩) 3)

/-- `maxDistance = 12 * (1 + scrollEffect)`. -/
def maxDistance (scrollEffect : α) : α :=
  12 * (1 + scrollEffect)

/-- `force = Math.pow(1 - distance / maxDistance, 2) * 4 * (1 + scrollEffect)`. -/
def force (distance scrollEffect : α) : α :=
  (1 - distance / maxDistance scrollEffect) ^ 2 * 4 * (1 + scrollEffect)

/-- `mouseSphere.center.distanceTo(centerPoint)` for a fragment in a frame. -/
def fragmentDistance (sqrt : α → α) (t : Tick α) (f : Fragment α) : α :=
  Vector3.distanceTo sqrt t.mouseCenter (centerPointOf f.positions t.matrixWorld)

/-- Lines 484-496: the vector added to `velocities[index]`. -/
def velocityIncrement (sqrt : α → α) (t : Tick α) (f : Fragment α) : Vector3 α :=
  let centerPoint := centerPointOf f.positions t.matrixWorld
  let distance := Vector3.distanceTo sqrt t.mouseCenter centerPoint
  let maxDistance := maxDistance t.scrollEffect
  let force := force distance t.scrollEffect
  if distance < maxDistance then
    let direction := Vector3.normalize sqrt (Vector3.sub centerPoint t.mouseCenter)
    Vector3.multiplyScalar direction force
  else
    let returnForce : α := 0.05
    let originalPosition := f.originalPosition
    let directionToOrigin := Vector3.sub originalPosition f.position
    Vector3.multiplyScalar directionToOrigin returnForce

/-- The body of `meshes.forEach` for one fragment (lines 475-499): add the
increment to the velocity, add the velocity to the position, then damp the
velocity by 0.85. -/
def fragmentStep (sqrt : α → α) (t : Tick α) (f : Fragment α) : Fragment α :=
  let velocity := Vector3.add f.velocity (velocityIncrement sqrt t f)
  let position := Vector3.add f.position velocity
  { f with position := position, velocity := Vector3.multiplyScalar velocity 0.85 }

/-- The fragment after `n` frames, frame `k` reading `ticks k`. -/
def fragmentRun (sqrt : α → α) (ticks : ℕ → Tick α) : ℕ → Fragment α → Fragment α
  | 0, f => f
  | n + 1, f => fragmentStep sqrt (ticks n) (fragmentRun sqrt ticks n f)

/-- Sum over the three axes of `(v + d / 20) ^ 2 + d ^ 2 / 25`, where `d` is
the offset of the position from `originalPosition` and `v` the velocity.  Not
in the source: the quantity that the return branch multiplies by 0.85 each
frame, used to prove that the fragment settles. -/
def returnEnergy (f : Fragment α) : α :=
  let d := Vector3.sub f.position f.originalPosition
  ((f.velocity.x + d.x / 20) ^ 2 + d.x ^ 2 / 25)
    + ((f.velocity.y + d.y / 20) ^ 2 + d.y ^ 2 / 25)
    + ((f.velocity.z + d.z / 20) ^ 2 + d.z ^ 2 / 25)

/-- A sample fragment: the triangle `(0,0,0), (3,0,0), (0,3,0)`, at rest at
`(0, 14, 0)`, with `originalPosition = (0, -6, 0)` as set on line 186. -/
def sampleFragment : Fragment α :=
  { position := ⟨0, 14, 0⟩
    velocity := ⟨0, 0, 0⟩
    originalPosition := ⟨0, -6, 0⟩
    positions := [⟨0, 0, 0⟩, ⟨3, 0, 0⟩, ⟨0, 3, 0⟩] }

/-- A sample frame with the pointer far from the sample fragment: the world
matrix is the translation by `(0, 14, 0)`, so the centroid is `(1, 15, 0)`; the
interaction point is `(101, 15, 0)` and `scrollEffect` is 2. -/
def farTick : Tick α :=
  { mouseCenter := ⟨101, 15, 0⟩
    scrollEffect := 2
    matrixWorld := fun v => Vector3.add v ⟨0, 14, 0⟩ }

/-- A sample frame with the pointer near the sample fragment: same world
matrix, interaction point `(4, 19, 0)` at distance 5 from the centroid,
`scrollEffect` 0. -/
def nearTick : Tick α :=
  { mouseCenter := ⟨4, 19, 0⟩
    scrollEffect := 0
    matrixWorld := fun v => Vector3.add v ⟨0, 14, 0⟩ }

end Field

/-! ## Fragment field with the IEEE special values

The same lines 475-499 of `animate`, over `JSNum`, so that a division by zero
gives an infinity or NaN instead of a field's conventional value.  `sqrt` is
`Math.sqrt`. -/

namespace IEEE

/-- Modelled from the spec: `Vector3.normalize` is three.js library code, not
part of the source file.  The spec (section 7a) says a zero-length direction is
replaced by the zero vector; three.js does this as
`divideScalar(length() || 1)`, which is what is written here. -/
def normalize (sqrt : JSNum → JSNum) (v : Vector3 JSNum) : Vector3 JSNum :=
  Vector3.divideScalar v (JSNum.orOne (Vector3.length sqrt v))

/-- Lines 475-482: the sum of the vertices, divided by 3, moved to world
space. -/
def centerPointOf (positions : List (Vector3 JSNum))
    (matrixWorld : Vector3 JSNum → Vector3 JSNum) : Vector3 JSNum :=
  matrixWorld
    (Vector3.divideScalar
      (positions.foldl Vector3.add ⟨JSNum.fin 0, JSNum.fin 0, JSNum.fin 0⟩) (JSNum.fin 3))

/-- `maxDistance = 12 * (1 + scrollEffect)`. -/
def maxDistance (scrollEffect : JSNum) : JSNum :=
  JSNum.fin 12 * (JSNum.fin 1 + scrollEffect)

/-- `force = Math.pow(1 - distance / maxDistance, 2) * 4 * (1 + scrollEffect)`. -/
def force (distance scrollEffect : JSNum) : JSNum :=
  JSNum.powTwo (JSNum.fin 1 - distance / maxDistance scrollEffect) * JSNum.fin 4
    * (JSNum.fin 1 + scrollEffect)

/-- Lines 484-496: the vector added to `velocities[index]`. -/
def velocityIncrement (sqrt : JSNum → JSNum) (t : Tick JSNum) (f : Fragment JSNum) :
    Vector3 JSNum :=
  let centerPoint := centerPointOf f.positions t.matrixWorld
  let distance := Vector3.distanceTo sqrt t.mouseCenter centerPoint
  let maxDistance := maxDistance t.scrollEffect
  let force := force distance t.scrollEffect
  if JSNum.lt distance maxDistance = true then
    let direction := normalize sqrt (Vector3.sub centerPoint t.mouseCenter)
    Vector3.multiplyScalar direction force
  else
    let returnForce : JSNum := JSNum.fin 0.05
    let originalPosition := f.originalPosition
    let directionToOrigin := Vector3.sub originalPosition f.position
    Vector3.multiplyScalar directionToOrigin returnForce

/-- The body of `meshes.forEach` for one fragment (lines 475-499). -/
def fragmentStep (sqrt : JSNum → JSNum) (t : Tick JSNum) (f : Fragment JSNum) :
    Fragment JSNum :=
  let velocity := Vector3.add f.velocity (velocityIncrement sqrt t f)
  let position := Vector3.add f.position velocity
  { f with position := position, velocity := Vector3.multiplyScalar velocity (JSNum.fin 0.85) }

/-- The sample triangle `(0,0,0), (3,0,0), (0,3,0)` moving with velocity
`(1, 2, 0)` at `(0, 14, 0)`, anchor `(0, -6, 0)`. -/
def sampleFragment : Fragment JSNum :=
  { position := Vector3.ofRat ⟨0, 14, 0⟩
    velocity := Vector3.ofRat ⟨1, 2, 0⟩
    originalPosition := Vector3.ofRat ⟨0, -6, 0⟩
    positions := [Vector3.ofRat ⟨0, 0, 0⟩, Vector3.ofRat ⟨3, 0, 0⟩, Vector3.ofRat ⟨0, 3, 0⟩] }

/-- The world matrix of the sample fragment: the translation by `(0, 14, 0)`. -/
def sampleMatrixWorld (v : Vector3 JSNum) : Vector3 JSNum :=
  Vector3.add v (Vector3.ofRat ⟨0, 14, 0⟩)

end IEEE

/-! ## Brain scale (`animate`, lines 12-14 and 431-435) -/

section Brain

variable {α : Type} [LinearOrderedField α]

/-- `const brainScaleLerpFactor = 0.1`. -/
def brainScaleLerpFactor : α := 0.1

/-- `targetBrainScale = Math.min(scrollY / scrollThreshold, 1) * maxScale`
with `maxScale = 3.5` and `scrollThreshold = 5`. -/
def targetBrainScaleOf (scrollY : α) : α :=
  let maxScale : α := 3.5
  let scrollThreshold : α := 5
  min (scrollY / scrollThreshold) 1 * maxScale

/-- One frame of
`currentBrainScale += (targetBrainScale - currentBrainScale) * brainScaleLerpFactor`. -/
def brainFrame (scrollY currentBrainScale : α) : α :=
  currentBrainScale +
    (targetBrainScaleOf scrollY - currentBrainScale) * brainScaleLerpFactor

/-- The value of `currentBrainScale` after `n` frames with `scrollY` held fixed. -/
def brainFrames (scrollY : α) : ℕ → α → α
  | 0, c => c
  | n + 1, c => brainFrame scrollY (brainFrames scrollY n c)

end Brain

/-! ## Firing (`brainVertexShader`, lines 80-102) -/

section Firing

variable {α : Type} [LinearOrderedField α] [FloorRing α]

/-- GLSL `fract(x) = x - floor(x)`. -/
def fract (x : α) : α := x - (⌊x⌋ : α)

/-- GLSL `mod(x, y) = x - y * floor(x / y)`. -/
def glslMod (x y : α) : α := x - y * (⌊x / y⌋ : α)

/-- GLSL `step(edge, x)`: 0 when `x < edge`, else 1. -/
def step (edge x : α) : α := if x < edge then 0 else 1

/-- GLSL `mix(x, y, a) = x * (1 - a) + y * a`. -/
def mix (x y a : α) : α := x * (1 - a) + y * a

/-- GLSL `dot` on `vec3`. -/
def dot (a b : Vector3 α) : α := a.x * b.x + a.y * b.y + a.z * b.z

/-- The shader function `random`. -/
def random (sin : α → α) (pos : Vector3 α) : α :=
  fract (sin (dot ⟨pos.x, pos.y, pos.z⟩ ⟨12.9898, 78.233, 45.164⟩) * 43758.5453123)

/-- The shader function `random2` (reads `pos.zyx`). -/
def random2 (sin : α → α) (pos : Vector3 α) : α :=
  fract (sin (dot ⟨pos.z, pos.y, pos.x⟩ ⟨45.164, 78.233, 12.9898⟩) * 43758.5453123)

/-- `randomFrequency = mix(2.0, 4.0, rand1)`. -/
def randomFrequency (sin : α → α) (position : Vector3 α) : α :=
  mix 2.0 4.0 (random sin position)

/-- The value `vFiring` that `main` computes for a vertex at time `uTime`. -/
def vFiring (sin : α → α) (position : Vector3 α) (uTime : α) : α :=
  let rand1 := random sin position
  let rand2 := random2 sin position
  let randomFrequency := mix 2.0 4.0 rand1
  let randomPhase := rand2 * 10.0
  let firingTime := glslMod (uTime * randomFrequency + randomPhase) 5.0
  step 4.7 firingTime * rand1

end Firing

/-! ## Scroll listener: effect strength -/

section ScrollTheorems

variable {α : Type} [LinearOrderedField α]

/-- C1: for every raw scroll offset `y` the effect strength written by the
scroll listener is `2 - y` when `y ≤ 2`, `1` when `2 < y ≤ 10` and `0` when
`y > 10`; offset 0 gives 2 and offset 15 gives 0. -/
theorem effectStrength_three_bands (y : α) :
    (y ≤ 2 → effectStrength y = 2 - y) ∧
    (2 < y → y ≤ 10 → effectStrength y = 1) ∧
    (10 < y → effectStrength y = 0) ∧
    effectStrength (0 : α) = 2 ∧ effectStrength (15 : α) = 0 := by
  refine ⟨fun h => ?_, fun h1 h2 => ?_, fun h => ?_, ?_, ?_⟩
  · simp [effectStrength, onScroll, h]
  · simp [effectStrength, onScroll, not_le.mpr h1, h2]
  · have h2 : ¬ y ≤ 2 := not_le.mpr (lt_trans (by norm_num) h)
    simp [effectStrength, onScroll, h2, not_le.mpr h]
  · simp [effectStrength, onScroll]
  · norm_num [effectStrength, onScroll]

theorem effectStrength_nonneg (y : α) : 0 ≤ effectStrength y := by
  unfold effectStrength onScroll
  simp only
  split_ifs with h1 h2
  · have : y / 1 = y := div_one y
    rw [this]
    linarith
  · exact zero_le_one
  · exact le_refl 0

/-- C2, the claim refuted: at offset 2 the listener takes the first band and
writes `2 - 2 = 0`, not 1, while at offset 3, inside `(2, 10]`, it writes 1. -/
theorem effectStrength_at_two_is_zero :
    effectStrength (2 : ℚ) = 0 ∧ effectStrength (2 : ℚ) ≠ 1 ∧
    effectStrength (3 : ℚ) = 1 ∧ effectStrength (3 : ℚ) ≠ effectStrength (2 : ℚ) := by
  have h2 : effectStrength (2 : ℚ) = 0 := by norm_num [effectStrength, onScroll]
  have h3 : effectStrength (3 : ℚ) = 1 := by norm_num [effectStrength, onScroll]
  refine ⟨h2, ?_, h3, ?_⟩
  · rw [h2]; norm_num
  · rw [h2, h3]; norm_num

/-- C2 as amended: the effect strength at offset 2 is 0 (the first band runs
from 2 at offset 0 down to 0 at offset 2), at every offset in `(2, 10]` it is
1, and as a function of a real offset it is not continuous at 2: it jumps
from 0 to 1 there. -/
theorem effectStrength_jump_at_two :
    effectStrength (2 : ℝ) = 0 ∧
    (∀ y : ℝ, 2 < y → y ≤ 10 → effectStrength y = 1) ∧
    ¬ ContinuousAt (fun y : ℝ => effectStrength y) 2 := by
  have h2 : effectStrength (2 : ℝ) = 0 := by norm_num [effectStrength, onScroll]
  have band : ∀ y : ℝ, 2 < y → y ≤ 10 → effectStrength y = 1 := by
    intro y h1 h3
    simp [effectStrength, onScroll, not_le.mpr h1, h3]
  refine ⟨h2, band, fun hc => ?_⟩
  rw [Metric.continuousAt_iff] at hc
  obtain ⟨δ, hδ, hball⟩ := hc (1 / 2) (by norm_num)
  have hm : 0 < min (δ / 2) 1 := lt_min (by linarith) (by norm_num)
  have hm1 : min (δ / 2) 1 ≤ 1 := min_le_right _ _
  have hm2 : min (δ / 2) 1 ≤ δ / 2 := min_le_left _ _
  have hclose : dist (2 + min (δ / 2) 1) 2 < δ := by
    rw [Real.dist_eq]
    have : (2 + min (δ / 2) 1 - 2 : ℝ) = min (δ / 2) 1 := by ring
    rw [this, abs_of_pos hm]
    linarith
  have hfar := hball hclose
  rw [h2, band (2 + min (δ / 2) 1) (by linarith) (by linarith), Real.dist_eq] at hfar
  norm_num at hfar

end ScrollTheorems

/-! ## Arithmetic of `JSNum` on finite values -/

namespace JSNum

theorem fin_sub_fin (a b : ℚ) : (fin a - fin b : JSNum) = fin (a - b) := by
  show add (fin a) (neg (fin b)) = fin (a - b)
  simp [add, neg, sub_eq_add_neg]

theorem fin_add_fin (a b : ℚ) : (fin a + fin b : JSNum) = fin (a + b) := rfl

theorem fin_mul_fin (a b : ℚ) : (fin a * fin b : JSNum) = fin (a * b) := rfl

theorem fin_div_fin (a b : ℚ) :
    (fin a / fin b : JSNum) =
      if b = 0 then (if a = 0 then nan else if 0 < a then posInf else negInf)
      else fin (a / b) := rfl

theorem fin_mul_posInf (a : ℚ) : (fin a * posInf : JSNum) = scaleInf a true := rfl

theorem one_eq_fin : (1 : JSNum) = fin 1 := rfl

theorem lt_fin_fin (a b : ℚ) : lt (fin a) (fin b) = decide (a < b) := rfl

theorem powTwo_fin (a : ℚ) : powTwo (fin a) = fin (a * a) := rfl

end JSNum

/-! ## Scroll fraction -/

/-- C3: at the top of a page that does not scroll (`scrollY = 0`,
`scrollHeight = innerHeight = 800`, so the extent is 0) the code computes
`0 / 0`, which is NaN, where the claim and the comment on lines 397 and 452
(`0 at top`) give 0. -/
theorem scrollFraction_top_of_unscrollable_page :
    scrollableHeight (JSNum.fin 800) (JSNum.fin 800) = JSNum.fin 0 ∧
    scrollFraction (JSNum.fin 0) (JSNum.fin 800) (JSNum.fin 800) = JSNum.nan ∧
    scrollFraction (JSNum.fin 0) (JSNum.fin 800) (JSNum.fin 800) ≠ JSNum.fin 0 := by
  have e0 : scrollFraction (JSNum.fin 0) (JSNum.fin 800) (JSNum.fin 800) = JSNum.nan := by
    simp [scrollFraction, scrollableHeight, JSNum.fin_sub_fin, JSNum.fin_div_fin]
  refine ⟨?_, e0, ?_⟩
  · simp [scrollableHeight, JSNum.fin_sub_fin]
  · rw [e0]; simp

/-- The quotient of lines 398, 453 and 466 on a page that does scroll: for a
positive extent the fraction is `offset / extent`; offset 15 with extent 100
gives 0.15. -/
theorem scrollFraction_of_pos_extent (scrollY scrollHeight innerHeight : ℚ)
    (h : 0 < scrollHeight - innerHeight) :
    scrollFraction (JSNum.fin scrollY) (JSNum.fin scrollHeight) (JSNum.fin innerHeight)
      = JSNum.fin (scrollY / (scrollHeight - innerHeight)) := by
  simp [scrollFraction, scrollableHeight, JSNum.fin_sub_fin, JSNum.fin_div_fin, h.ne.symm]

/-! ## Brain scale -/

section BrainTheorems

variable {α : Type} [LinearOrderedField α]

theorem brainFrames_succ (scrollY c : α) (n : ℕ) :
    brainFrames scrollY (n + 1) c = brainFrame scrollY (brainFrames scrollY n c) := rfl

theorem brainFrames_gap (scrollY c : α) (n : ℕ) :
    targetBrainScaleOf scrollY - brainFrames scrollY n c
      = (targetBrainScaleOf scrollY - c) * (1 - brainScaleLerpFactor) ^ n := by
  induction n with
  | zero => simp [brainFrames]
  | succ k ih =>
    rw [brainFrames_succ, pow_succ, ← mul_assoc, ← ih]
    unfold brainFrame
    ring

/-- C7: with the scroll offset held fixed, so that the target `T` is constant,
`currentBrainScale` after `n` frames from the value `C` is
`T - (T - C) * (1 - lerpFactor) ^ n` with `lerpFactor = 0.1`; it moves toward
`T` monotonically and never passes `T`. -/
theorem brainFrames_closed_form (scrollY C : α) (n : ℕ) :
    brainFrames scrollY n C
      = targetBrainScaleOf scrollY
        - (targetBrainScaleOf scrollY - C) * (1 - brainScaleLerpFactor) ^ n ∧
    (brainScaleLerpFactor : α) = 1 / 10 ∧
    (C ≤ targetBrainScaleOf scrollY →
      brainFrames scrollY n C ≤ brainFrames scrollY (n + 1) C ∧
      brainFrames scrollY (n + 1) C ≤ targetBrainScaleOf scrollY) ∧
    (targetBrainScaleOf scrollY ≤ C →
      targetBrainScaleOf scrollY ≤ brainFrames scrollY (n + 1) C ∧
      brainFrames scrollY (n + 1) C ≤ brainFrames scrollY n C) := by
  have hl : (brainScaleLerpFactor : α) = 1 / 10 := by
    unfold brainScaleLerpFactor
    norm_num
  have hr : (0 : α) ≤ 1 - brainScaleLerpFactor := by rw [hl]; norm_num
  have g := brainFrames_gap scrollY C
  have hstep : brainFrames scrollY (n + 1) C - brainFrames scrollY n C
      = (targetBrainScaleOf scrollY - brainFrames scrollY n C) * (1 / 10) := by
    rw [brainFrames_succ]
    unfold brainFrame
    rw [hl]
    ring
  refine ⟨?_, hl, fun h => ?_, fun h => ?_⟩
  · rw [← g n]
    ring
  · have h0 : 0 ≤ targetBrainScaleOf scrollY - brainFrames scrollY n C := by
      rw [g n]
      exact mul_nonneg (sub_nonneg.mpr h) (pow_nonneg hr n)
    have h1 : 0 ≤ targetBrainScaleOf scrollY - brainFrames scrollY (n + 1) C := by
      rw [g (n + 1)]
      exact mul_nonneg (sub_nonneg.mpr h) (pow_nonneg hr (n + 1))
    constructor <;> linarith
  · have h0 : targetBrainScaleOf scrollY - brainFrames scrollY n C ≤ 0 := by
      rw [g n]
      exact mul_nonpos_of_nonpos_of_nonneg (sub_nonpos.mpr h) (pow_nonneg hr n)
    have h1 : targetBrainScaleOf scrollY - brainFrames scrollY (n + 1) C ≤ 0 := by
      rw [g (n + 1)]
      exact mul_nonpos_of_nonpos_of_nonneg (sub_nonpos.mpr h) (pow_nonneg hr (n + 1))
    constructor <;> linarith

end BrainTheorems

/-! ## Firing -/

section FiringTheorems

variable {α : Type} [LinearOrderedField α] [FloorRing α]

theorem fract_nonneg (x : α) : 0 ≤ fract x := by
  unfold fract
  exact sub_nonneg.mpr (Int.floor_le x)

theorem fract_lt_one (x : α) : fract x < 1 := by
  unfold fract
  have := Int.lt_floor_add_one x
  linarith

theorem glslMod_add_period (y : α) : glslMod (y + 5) 5 = glslMod y 5 := by
  unfold glslMod
  have h : (y + 5) / 5 = y / 5 + 1 := by
    field_simp
  rw [h, Int.floor_add_one]
  push_cast
  ring

theorem randomFrequency_pos (sin : α → α) (p : Vector3 α) :
    0 < randomFrequency sin p := by
  unfold randomFrequency mix
  have h := fract_nonneg (α := α)
  have hr : 0 ≤ random sin p := by
    unfold random
    exact h _
  norm_num
  linarith

/-- C9: for every vertex position `p` and every time `t`, with
`f = mix(2, 4, random(p))` and period 5, the value
`step(4.7, mod(t * f + random2(p) * 10, 5)) * random(p)` computed at time
`t + 5 / f` equals the value computed at time `t`. -/
theorem vFiring_periodic (sin : α → α) (p : Vector3 α) (t : α) :
    vFiring sin p (t + 5 / randomFrequency sin p) = vFiring sin p t := by
  have hf : randomFrequency sin p ≠ 0 := (randomFrequency_pos sin p).ne.symm
  have h5 : (5.0 : α) = 5 := by norm_num
  have hshift : (t + 5 / randomFrequency sin p) * randomFrequency sin p
      + random2 sin p * 10.0
      = (t * randomFrequency sin p + random2 sin p * 10.0) + 5 := by
    field_simp
    ring
  unfold vFiring
  simp only
  change step 4.7 (glslMod ((t + 5 / randomFrequency sin p) * randomFrequency sin p
      + random2 sin p * 10.0) 5.0) * random sin p
    = step 4.7 (glslMod (t * randomFrequency sin p + random2 sin p * 10.0) 5.0)
      * random sin p
  rw [hshift, h5, glslMod_add_period]

end FiringTheorems

/-! ## Fragment field -/

section FieldTheorems

variable {α : Type} [LinearOrderedField α]

theorem centerPointOf_sample :
    centerPointOf (sampleFragment : Fragment ℝ).positions
      (fun v => Vector3.add v ⟨0, 14, 0⟩) = ⟨1, 15, 0⟩ := by
  norm_num [centerPointOf, sampleFragment, Vector3.divideScalar, Vector3.multiplyScalar,
    Vector3.add]

theorem fragmentDistance_farTick :
    fragmentDistance Real.sqrt (farTick : Tick ℝ) sampleFragment = 100 := by
  unfold fragmentDistance
  have h : (farTick : Tick ℝ).matrixWorld = fun v => Vector3.add v ⟨0, 14, 0⟩ := rfl
  rw [h, centerPointOf_sample]
  norm_num [farTick, Vector3.distanceTo, Vector3.distanceToSquared]
  rw [show (10000 : ℝ) = 100 ^ 2 by norm_num, Real.sqrt_sq (by norm_num)]

theorem fragmentDistance_nearTick :
    fragmentDistance Real.sqrt (nearTick : Tick ℝ) sampleFragment = 5 := by
  unfold fragmentDistance
  have h : (nearTick : Tick ℝ).matrixWorld = fun v => Vector3.add v ⟨0, 14, 0⟩ := rfl
  rw [h, centerPointOf_sample]
  norm_num [nearTick, Vector3.distanceTo, Vector3.distanceToSquared]
  rw [show (25 : ℝ) = 5 ^ 2 by norm_num, Real.sqrt_sq (by norm_num)]

/-- C5: `maxDistance = 12 * (1 + scrollEffect)`, and for a fragment with
`distance < maxDistance` the velocity is incremented by
`normalize(centerPoint - mouseCenter)` times
`(1 - distance / maxDistance) ^ 2 * 4 * (1 + scrollEffect)`; the position then
receives the incremented velocity, and only after that is the velocity
multiplied by 0.85. -/
theorem fragmentStep_repulsion (sqrt : α → α) (t : Tick α) (f : Fragment α)
    (h : fragmentDistance sqrt t f < maxDistance t.scrollEffect) :
    maxDistance t.scrollEffect = 12 * (1 + t.scrollEffect) ∧
    velocityIncrement sqrt t f
      = Vector3.multiplyScalar
          (Vector3.normalize sqrt
            (Vector3.sub (centerPointOf f.positions t.matrixWorld) t.mouseCenter))
          ((1 - fragmentDistance sqrt t f / (12 * (1 + t.scrollEffect))) ^ 2 * 4
            * (1 + t.scrollEffect)) ∧
    (fragmentStep sqrt t f).position
      = Vector3.add f.position (Vector3.add f.velocity (velocityIncrement sqrt t f)) ∧
    (fragmentStep sqrt t f).velocity
      = Vector3.multiplyScalar
          (Vector3.add f.velocity (velocityIncrement sqrt t f)) (85 / 100) := by
  refine ⟨rfl, ?_, rfl, ?_⟩
  · unfold fragmentDistance at h
    unfold velocityIncrement
    simp only [if_pos h]
    rfl
  · unfold fragmentStep
    norm_num

/-- C5 at the sample fragment with the pointer at distance 5 and
`scrollEffect = 0` (so `maxDistance = 12`). -/
theorem fragmentStep_repulsion_witness :
    fragmentDistance Real.sqrt (nearTick : Tick ℝ) sampleFragment
      < maxDistance (nearTick : Tick ℝ).scrollEffect ∧
    (fragmentStep Real.sqrt (nearTick : Tick ℝ) sampleFragment).position
      = Vector3.add (sampleFragment : Fragment ℝ).position
          (Vector3.add (sampleFragment : Fragment ℝ).velocity
            (velocityIncrement Real.sqrt nearTick sampleFragment)) :=
  have h : fragmentDistance Real.sqrt (nearTick : Tick ℝ) sampleFragment
      < maxDistance (nearTick : Tick ℝ).scrollEffect := by
    rw [fragmentDistance_nearTick]
    norm_num [maxDistance, nearTick]
  ⟨h, (fragmentStep_repulsion Real.sqrt nearTick sampleFragment h).2.2.1⟩

theorem maxDistance_pos (e : α) (he : 0 ≤ e) : 0 < maxDistance e := by
  unfold maxDistance
  linarith

theorem force_le_max (d e : α) (he : 0 ≤ e) (hd : 0 ≤ d) (hlt : d < maxDistance e) :
    force d e ≤ 4 * (1 + e) := by
  have hm := maxDistance_pos e he
  have h0 : 0 ≤ d / maxDistance e := div_nonneg hd hm.le
  have h1 : d / maxDistance e < 1 := (div_lt_one hm).mpr hlt
  have hsq : (1 - d / maxDistance e) ^ 2 ≤ 1 := by nlinarith
  unfold force
  have he1 : 0 ≤ 4 * (1 + e) := by linarith
  calc (1 - d / maxDistance e) ^ 2 * 4 * (1 + e)
      = (1 - d / maxDistance e) ^ 2 * (4 * (1 + e)) := by ring
    _ ≤ 1 * (4 * (1 + e)) := mul_le_mul_of_nonneg_right hsq he1
    _ = 4 * (1 + e) := one_mul _

theorem velocityIncrement_of_far (sqrt : α → α) (t : Tick α) (f : Fragment α)
    (h : maxDistance t.scrollEffect ≤ fragmentDistance sqrt t f) :
    velocityIncrement sqrt t f
      = Vector3.multiplyScalar (Vector3.sub f.originalPosition f.position) (1 / 20) := by
  unfold fragmentDistance at h
  unfold velocityIncrement
  simp only [if_neg (not_lt.mpr h)]
  norm_num

theorem farTick_far :
    maxDistance (farTick : Tick ℝ).scrollEffect
      ≤ fragmentDistance Real.sqrt (farTick : Tick ℝ) sampleFragment := by
  rw [fragmentDistance_farTick]
  norm_num [maxDistance, farTick]

/-- C4, the claim refuted: the sample fragment sits at `(0, 14, 0)`, 20 units
from its anchor `(0, -6, 0)`, with the pointer 100 units away (so the return
branch runs).  The velocity increment is `(0, -1, 0)`, of length 1, not the
normalised direction times 0.05, which is `(0, -0.05, 0)` of length 0.05. -/
theorem returnBranch_increment_not_unit :
    maxDistance (farTick : Tick ℝ).scrollEffect
      ≤ fragmentDistance Real.sqrt (farTick : Tick ℝ) sampleFragment ∧
    velocityIncrement Real.sqrt (farTick : Tick ℝ) sampleFragment = ⟨0, -1, 0⟩ ∧
    Vector3.length Real.sqrt (velocityIncrement Real.sqrt (farTick : Tick ℝ) sampleFragment)
      = 1 ∧
    Vector3.multiplyScalar
        (Vector3.normalize Real.sqrt
          (Vector3.sub (sampleFragment : Fragment ℝ).originalPosition
            (sampleFragment : Fragment ℝ).position)) (5 / 100)
      = ⟨0, -(5 / 100), 0⟩ ∧
    velocityIncrement Real.sqrt (farTick : Tick ℝ) sampleFragment
      ≠ Vector3.multiplyScalar
          (Vector3.normalize Real.sqrt
            (Vector3.sub (sampleFragment : Fragment ℝ).originalPosition
              (sampleFragment : Fragment ℝ).position)) (5 / 100) ∧
    Vector3.length Real.sqrt (velocityIncrement Real.sqrt (farTick : Tick ℝ) sampleFragment)
      ≠ 5 / 100 := by
  have hinc : velocityIncrement Real.sqrt (farTick : Tick ℝ) sampleFragment = ⟨0, -1, 0⟩ := by
    rw [velocityIncrement_of_far Real.sqrt farTick sampleFragment farTick_far]
    norm_num [sampleFragment, Vector3.sub, Vector3.multiplyScalar]
  have hlen : Vector3.length Real.sqrt (⟨0, -1, 0⟩ : Vector3 ℝ) = 1 := by
    norm_num [Vector3.length]
  have h400 : Real.sqrt 400 = 20 := by
    rw [show (400 : ℝ) = 20 ^ 2 by norm_num, Real.sqrt_sq (by norm_num)]
  have hnorm : Vector3.multiplyScalar
        (Vector3.normalize Real.sqrt
          (Vector3.sub (sampleFragment : Fragment ℝ).originalPosition
            (sampleFragment : Fragment ℝ).position)) (5 / 100)
      = ⟨0, -(5 / 100), 0⟩ := by
    norm_num [sampleFragment, Vector3.sub, Vector3.normalize, Vector3.normalizeDivisor,
      Vector3.length, Vector3.divideScalar, Vector3.multiplyScalar, h400]
  refine ⟨farTick_far, hinc, ?_, hnorm, ?_, ?_⟩
  · rw [hinc, hlen]
  · rw [hinc, hnorm]
    intro h
    have := congrArg Vector3.y h
    norm_num at this
  · rw [hinc, hlen]
    norm_num

/-- C4 as amended: in the return branch the velocity increment is
`(originalPosition - position) * 0.05`, with no normalisation: it points toward
the anchor and its length is 0.05 times the distance to the anchor. -/
theorem velocityIncrement_return (t : Tick ℝ) (f : Fragment ℝ)
    (h : maxDistance t.scrollEffect ≤ fragmentDistance Real.sqrt t f) :
    velocityIncrement Real.sqrt t f
      = Vector3.multiplyScalar (Vector3.sub f.originalPosition f.position) (5 / 100) ∧
    Vector3.length Real.sqrt (velocityIncrement Real.sqrt t f)
      = 5 / 100 * Vector3.length Real.sqrt (Vector3.sub f.originalPosition f.position) := by
  have hinc : velocityIncrement Real.sqrt t f
      = Vector3.multiplyScalar (Vector3.sub f.originalPosition f.position) (5 / 100) := by
    rw [velocityIncrement_of_far Real.sqrt t f h]
    norm_num
  refine ⟨hinc, ?_⟩
  rw [hinc]
  simp only [Vector3.length, Vector3.multiplyScalar, Vector3.sub]
  have hc : (0 : ℝ) ≤ 5 / 100 := by norm_num
  have harg : ∀ a b c : ℝ,
      a * (5 / 100) * (a * (5 / 100)) + b * (5 / 100) * (b * (5 / 100))
        + c * (5 / 100) * (c * (5 / 100))
      = 5 / 100 * (5 / 100) * (a * a + b * b + c * c) := by
    intro a b c
    ring
  rw [harg, Real.sqrt_mul (mul_self_nonneg _), Real.sqrt_mul_self hc]

/-- C4 as amended, at the sample fragment with the pointer 100 units away. -/
theorem velocityIncrement_return_witness :
    maxDistance (farTick : Tick ℝ).scrollEffect
      ≤ fragmentDistance Real.sqrt (farTick : Tick ℝ) sampleFragment ∧
    velocityIncrement Real.sqrt (farTick : Tick ℝ) sampleFragment
      = Vector3.multiplyScalar
          (Vector3.sub (sampleFragment : Fragment ℝ).originalPosition
            (sampleFragment : Fragment ℝ).position) (5 / 100) :=
  ⟨farTick_far, (velocityIncrement_return farTick sampleFragment farTick_far).1⟩

theorem fragmentStep_originalPosition (sqrt : α → α) (t : Tick α) (f : Fragment α) :
    (fragmentStep sqrt t f).originalPosition = f.originalPosition := rfl

theorem fragmentStep_positions (sqrt : α → α) (t : Tick α) (f : Fragment α) :
    (fragmentStep sqrt t f).positions = f.positions := rfl

theorem fragmentRun_originalPosition (sqrt : α → α) (ticks : ℕ → Tick α) (n : ℕ)
    (f : Fragment α) :
    (fragmentRun sqrt ticks n f).originalPosition = f.originalPosition := by
  induction n with
  | zero => rfl
  | succ k ih =>
    show (fragmentStep sqrt (ticks k) (fragmentRun sqrt ticks k f)).originalPosition = _
    rw [fragmentStep_originalPosition, ih]

theorem fragmentRun_positions (sqrt : α → α) (ticks : ℕ → Tick α) (n : ℕ)
    (f : Fragment α) :
    (fragmentRun sqrt ticks n f).positions = f.positions := by
  induction n with
  | zero => rfl
  | succ k ih =>
    show (fragmentStep sqrt (ticks k) (fragmentRun sqrt ticks k f)).positions = _
    rw [fragmentStep_positions, ih]

theorem returnEnergy_step (sqrt : α → α) (t : Tick α) (f : Fragment α)
    (h : maxDistance t.scrollEffect ≤ fragmentDistance sqrt t f) :
    returnEnergy (fragmentStep sqrt t f) = 17 / 20 * returnEnergy f := by
  have hinc := velocityIncrement_of_far sqrt t f h
  unfold returnEnergy fragmentStep
  simp only [hinc, Vector3.add, Vector3.sub, Vector3.multiplyScalar]
  norm_num
  ring

theorem returnEnergy_run (sqrt : α → α) (ticks : ℕ → Tick α) (f : Fragment α)
    (h : ∀ k, maxDistance (ticks k).scrollEffect
      ≤ fragmentDistance sqrt (ticks k) (fragmentRun sqrt ticks k f)) (n : ℕ) :
    returnEnergy (fragmentRun sqrt ticks n f) = (17 / 20) ^ n * returnEnergy f := by
  induction n with
  | zero => simp [fragmentRun]
  | succ k ih =>
    show returnEnergy (fragmentStep sqrt (ticks k) (fragmentRun sqrt ticks k f)) = _
    rw [returnEnergy_step sqrt (ticks k) _ (h k), ih, pow_succ]
    ring

theorem returnEnergy_nonneg (f : Fragment α) : 0 ≤ returnEnergy f := by
  unfold returnEnergy
  positivity

theorem distanceToSquared_le_energy (f : Fragment α) :
    Vector3.distanceToSquared f.position f.originalPosition ≤ 25 * returnEnergy f := by
  unfold returnEnergy Vector3.distanceToSquared
  simp only [Vector3.sub]
  nlinarith [sq_nonneg (f.velocity.x + (f.position.x - f.originalPosition.x) / 20),
    sq_nonneg (f.velocity.y + (f.position.y - f.originalPosition.y) / 20),
    sq_nonneg (f.velocity.z + (f.position.z - f.originalPosition.z) / 20)]

theorem distanceToSquared_nonneg (a b : Vector3 α) : 0 ≤ Vector3.distanceToSquared a b := by
  unfold Vector3.distanceToSquared
  nlinarith [mul_self_nonneg (a.x - b.x), mul_self_nonneg (a.y - b.y),
    mul_self_nonneg (a.z - b.z)]

/-- C6: for every fragment (any position, velocity and anchor) and every
`ε > 0` there is a step count `N` such that, whatever the frames read, if the
return branch is taken on every frame (`distance ≥ maxDistance` throughout),
then after every `n ≥ N` frames the distance from the position to
`originalPosition` is below `ε`. -/
theorem fragmentRun_settles (f : Fragment ℝ) (ε : ℝ) (hε : 0 < ε) :
    ∃ N : ℕ, ∀ ticks : ℕ → Tick ℝ,
      (∀ k, maxDistance (ticks k).scrollEffect
        ≤ fragmentDistance Real.sqrt (ticks k) (fragmentRun Real.sqrt ticks k f)) →
      ∀ n, N ≤ n →
        Vector3.distanceTo Real.sqrt (fragmentRun Real.sqrt ticks n f).position
          f.originalPosition < ε := by
  have hE := returnEnergy_nonneg f
  have hden : 0 < 25 * returnEnergy f + 1 := by linarith
  have hq : 0 < ε ^ 2 / (25 * returnEnergy f + 1) := div_pos (pow_pos hε 2) hden
  obtain ⟨N, hN⟩ := exists_pow_lt_of_lt_one hq (show (17 / 20 : ℝ) < 1 by norm_num)
  refine ⟨N, fun ticks hret n hn => ?_⟩
  have hpow : (17 / 20 : ℝ) ^ n ≤ (17 / 20) ^ N :=
    pow_le_pow_of_le_one (by norm_num) (by norm_num) hn
  have hpos : (0 : ℝ) ≤ (17 / 20) ^ n := pow_nonneg (by norm_num) n
  have hrun := returnEnergy_run Real.sqrt ticks f hret n
  have hle := distanceToSquared_le_energy (fragmentRun Real.sqrt ticks n f)
  rw [fragmentRun_originalPosition, hrun] at hle
  have hN2 : (17 / 20 : ℝ) ^ N * (25 * returnEnergy f + 1) < ε ^ 2 :=
    (lt_div_iff₀ hden).mp hN
  have hsq : Vector3.distanceToSquared (fragmentRun Real.sqrt ticks n f).position
      f.originalPosition < ε ^ 2 := by
    have h1 : (17 / 20 : ℝ) ^ n * returnEnergy f ≤ (17 / 20) ^ N * returnEnergy f :=
      mul_le_mul_of_nonneg_right hpow hE
    have h2 : (0 : ℝ) ≤ (17 / 20) ^ N := pow_nonneg (by norm_num) N
    nlinarith
  unfold Vector3.distanceTo
  calc Real.sqrt (Vector3.distanceToSquared (fragmentRun Real.sqrt ticks n f).position
        f.originalPosition)
      < Real.sqrt (ε ^ 2) := Real.sqrt_lt_sqrt (distanceToSquared_nonneg _ _) hsq
    _ = ε := Real.sqrt_sq hε.le

theorem constantFar_far (k : ℕ) :
    maxDistance (farTick : Tick ℝ).scrollEffect
      ≤ fragmentDistance Real.sqrt (farTick : Tick ℝ)
          (fragmentRun Real.sqrt (fun _ => farTick) k sampleFragment) := by
  have h : fragmentDistance Real.sqrt (farTick : Tick ℝ)
      (fragmentRun Real.sqrt (fun _ => farTick) k sampleFragment)
      = fragmentDistance Real.sqrt (farTick : Tick ℝ) sampleFragment := by
    unfold fragmentDistance
    rw [fragmentRun_positions]
  rw [h]
  exact farTick_far

/-- C6 at the sample fragment with `ε = 1`, every frame reading the far
pointer, for which the return branch is taken on every frame. -/
theorem fragmentRun_settles_witness :
    (0 : ℝ) < 1 ∧
    (∀ k, maxDistance (farTick : Tick ℝ).scrollEffect
      ≤ fragmentDistance Real.sqrt (farTick : Tick ℝ)
          (fragmentRun Real.sqrt (fun _ => farTick) k sampleFragment)) ∧
    ∃ N : ℕ, ∀ n, N ≤ n →
      Vector3.distanceTo Real.sqrt
        (fragmentRun Real.sqrt (fun _ => (farTick : Tick ℝ)) n sampleFragment).position
        (sampleFragment : Fragment ℝ).originalPosition < 1 :=
  ⟨one_pos, constantFar_far,
    (fragmentRun_settles sampleFragment 1 one_pos).imp
      (fun _ hN => hN (fun _ => farTick) constantFar_far)⟩

end FieldTheorems

/-! ## Fragment field with the IEEE special values: zero distance -/

theorem IEEE_sub_self (m : Vector3 ℚ) :
    Vector3.sub (Vector3.ofRat m) (Vector3.ofRat m) = Vector3.ofRat ⟨0, 0, 0⟩ := by
  simp [Vector3.sub, Vector3.ofRat, JSNum.fin_sub_fin]

theorem IEEE_length_zero (sqrt : JSNum → JSNum) (hs : sqrt (JSNum.fin 0) = JSNum.fin 0) :
    Vector3.length sqrt (Vector3.ofRat ⟨0, 0, 0⟩) = JSNum.fin 0 := by
  simp [Vector3.length, Vector3.ofRat, JSNum.fin_mul_fin, JSNum.fin_add_fin, hs]

theorem IEEE_normalize_zero (sqrt : JSNum → JSNum) (hs : sqrt (JSNum.fin 0) = JSNum.fin 0) :
    IEEE.normalize sqrt (Vector3.ofRat ⟨0, 0, 0⟩) = Vector3.ofRat ⟨0, 0, 0⟩ := by
  unfold IEEE.normalize
  rw [IEEE_length_zero sqrt hs]
  simp [JSNum.orOne, Vector3.divideScalar, Vector3.multiplyScalar, Vector3.ofRat,
    JSNum.one_eq_fin, JSNum.fin_div_fin, JSNum.fin_mul_fin]

theorem IEEE_maxDistance_fin (e : ℚ) :
    IEEE.maxDistance (JSNum.fin e) = JSNum.fin (12 * (1 + e)) := by
  simp [IEEE.maxDistance, JSNum.fin_add_fin, JSNum.fin_mul_fin]

theorem IEEE_force_fin (d e : ℚ) (he : 0 ≤ e) :
    IEEE.force (JSNum.fin d) (JSNum.fin e) = JSNum.fin (force d e) := by
  have hne : (12 : ℚ) * (1 + e) ≠ 0 := by
    have : (0 : ℚ) < 12 * (1 + e) := by linarith
    exact this.ne.symm
  unfold IEEE.force
  rw [IEEE_maxDistance_fin]
  simp only [JSNum.fin_div_fin, if_neg hne, JSNum.fin_sub_fin, JSNum.powTwo_fin,
    JSNum.fin_mul_fin, JSNum.fin_add_fin]
  congr 1
  unfold force maxDistance
  ring

/-- C10: when the interaction point coincides exactly with a fragment's
centroid, in arithmetic with the IEEE special values: the distance is 0, the
repulsion branch is taken, the force magnitude is `4 * (1 + scrollEffect)`,
the largest value it takes inside the radius.  The direction has length 0;
dividing it by that length would give NaN in every component, but `normalize`
divides by 1 instead and returns the zero vector.  So the velocity increment
is the zero vector, and the new velocity `velocity * 0.85` and the new
position `position + velocity` are finite. -/
theorem fragmentStep_zero_distance (sqrt : JSNum → JSNum)
    (hs : sqrt (JSNum.fin 0) = JSNum.fin 0)
    (m p v : Vector3 ℚ) (a : Vector3 JSNum) (e : ℚ) (he : 0 ≤ e)
    (positions : List (Vector3 JSNum)) (matrixWorld : Vector3 JSNum → Vector3 JSNum)
    (hc : IEEE.centerPointOf positions matrixWorld = Vector3.ofRat m) :
    Vector3.distanceTo sqrt (Vector3.ofRat m) (IEEE.centerPointOf positions matrixWorld)
      = JSNum.fin 0 ∧
    JSNum.lt (JSNum.fin 0) (IEEE.maxDistance (JSNum.fin e)) = true ∧
    IEEE.force (JSNum.fin 0) (JSNum.fin e) = JSNum.fin (4 * (1 + e)) ∧
    (∀ d : ℚ, 0 ≤ d → d < 12 * (1 + e) →
      ∃ q : ℚ, IEEE.force (JSNum.fin d) (JSNum.fin e) = JSNum.fin q ∧ q ≤ 4 * (1 + e)) ∧
    Vector3.length sqrt
      (Vector3.sub (IEEE.centerPointOf positions matrixWorld) (Vector3.ofRat m))
      = JSNum.fin 0 ∧
    Vector3.divideScalar
        (Vector3.sub (IEEE.centerPointOf positions matrixWorld) (Vector3.ofRat m))
        (Vector3.length sqrt
          (Vector3.sub (IEEE.centerPointOf positions matrixWorld) (Vector3.ofRat m)))
      = ⟨JSNum.nan, JSNum.nan, JSNum.nan⟩ ∧
    IEEE.normalize sqrt
        (Vector3.sub (IEEE.centerPointOf positions matrixWorld) (Vector3.ofRat m))
      = Vector3.ofRat ⟨0, 0, 0⟩ ∧
    IEEE.velocityIncrement sqrt ⟨Vector3.ofRat m, JSNum.fin e, matrixWorld⟩
        ⟨Vector3.ofRat p, Vector3.ofRat v, a, positions⟩
      = Vector3.ofRat ⟨0, 0, 0⟩ ∧
    (IEEE.fragmentStep sqrt ⟨Vector3.ofRat m, JSNum.fin e, matrixWorld⟩
        ⟨Vector3.ofRat p, Vector3.ofRat v, a, positions⟩).velocity
      = Vector3.ofRat (Vector3.multiplyScalar v (85 / 100)) ∧
    (IEEE.fragmentStep sqrt ⟨Vector3.ofRat m, JSNum.fin e, matrixWorld⟩
        ⟨Vector3.ofRat p, Vector3.ofRat v, a, positions⟩).position
      = Vector3.ofRat (Vector3.add p v) := by
  have hpos : (0 : ℚ) < 12 * (1 + e) := by linarith
  have hdist : Vector3.distanceTo sqrt (Vector3.ofRat m)
      (IEEE.centerPointOf positions matrixWorld) = JSNum.fin 0 := by
    rw [hc]
    simp [Vector3.distanceTo, Vector3.distanceToSquared, Vector3.ofRat, JSNum.fin_sub_fin,
      JSNum.fin_mul_fin, JSNum.fin_add_fin, hs]
  have hlt : JSNum.lt (JSNum.fin 0) (IEEE.maxDistance (JSNum.fin e)) = true := by
    rw [IEEE_maxDistance_fin, JSNum.lt_fin_fin]
    exact decide_eq_true hpos
  have hforce : IEEE.force (JSNum.fin 0) (JSNum.fin e) = JSNum.fin (4 * (1 + e)) := by
    rw [IEEE_force_fin 0 e he]
    congr 1
    simp [force]
  have hinc : IEEE.velocityIncrement sqrt ⟨Vector3.ofRat m, JSNum.fin e, matrixWorld⟩
      ⟨Vector3.ofRat p, Vector3.ofRat v, a, positions⟩ = Vector3.ofRat ⟨0, 0, 0⟩ := by
    unfold IEEE.velocityIncrement
    simp only [hdist, hlt, if_true]
    rw [hc, IEEE_sub_self, IEEE_normalize_zero sqrt hs, hforce]
    simp [Vector3.multiplyScalar, Vector3.ofRat, JSNum.fin_mul_fin]
  refine ⟨hdist, hlt, hforce, fun d hd hdlt => ?_, ?_, ?_, ?_, hinc, ?_, ?_⟩
  · refine ⟨force d e, IEEE_force_fin d e he, ?_⟩
    exact force_le_max d e he hd (by unfold maxDistance; exact hdlt)
  · rw [hc, IEEE_sub_self, IEEE_length_zero sqrt hs]
  · rw [hc, IEEE_sub_self, IEEE_length_zero sqrt hs]
    simp [Vector3.divideScalar, Vector3.multiplyScalar, Vector3.ofRat, JSNum.one_eq_fin,
      JSNum.fin_div_fin, JSNum.fin_mul_posInf, JSNum.scaleInf]
  · rw [hc, IEEE_sub_self, IEEE_normalize_zero sqrt hs]
  · unfold IEEE.fragmentStep
    simp only [hinc]
    simp only [Vector3.add, Vector3.multiplyScalar, Vector3.ofRat, JSNum.fin_add_fin,
      JSNum.fin_mul_fin]
    norm_num
  · unfold IEEE.fragmentStep
    simp only [hinc]
    simp only [Vector3.add, Vector3.ofRat, JSNum.fin_add_fin]
    norm_num

theorem IEEE_centerPointOf_sample :
    IEEE.centerPointOf IEEE.sampleFragment.positions IEEE.sampleMatrixWorld
      = Vector3.ofRat ⟨1, 15, 0⟩ := by
  simp only [IEEE.centerPointOf, IEEE.sampleFragment, IEEE.sampleMatrixWorld, List.foldl,
    Vector3.add, Vector3.ofRat, Vector3.divideScalar, Vector3.multiplyScalar,
    JSNum.one_eq_fin, JSNum.fin_add_fin, JSNum.fin_div_fin]
  norm_num [JSNum.fin_add_fin, JSNum.fin_mul_fin]

/-- C10 at the sample fragment, moving with velocity `(1, 2, 0)`, with the
pointer on its centroid `(1, 15, 0)` and `scrollEffect = 1`: the increment is
the zero vector and the fragment moves to `(1, 16, 0)`. -/
theorem fragmentStep_zero_distance_witness :
    JSNum.sqrt Rat.sqrt (JSNum.fin 0) = JSNum.fin 0 ∧
    (0 : ℚ) ≤ 1 ∧
    IEEE.centerPointOf IEEE.sampleFragment.positions IEEE.sampleMatrixWorld
      = Vector3.ofRat ⟨1, 15, 0⟩ ∧
    IEEE.velocityIncrement (JSNum.sqrt Rat.sqrt)
        ⟨Vector3.ofRat ⟨1, 15, 0⟩, JSNum.fin 1, IEEE.sampleMatrixWorld⟩ IEEE.sampleFragment
      = Vector3.ofRat ⟨0, 0, 0⟩ ∧
    (IEEE.fragmentStep (JSNum.sqrt Rat.sqrt)
        ⟨Vector3.ofRat ⟨1, 15, 0⟩, JSNum.fin 1, IEEE.sampleMatrixWorld⟩
        IEEE.sampleFragment).position
      = Vector3.ofRat (Vector3.add ⟨0, 14, 0⟩ ⟨1, 2, 0⟩) :=
  have hs : JSNum.sqrt Rat.sqrt (JSNum.fin 0) = JSNum.fin 0 := by
    simp [JSNum.sqrt, Rat.sqrt]
  have he : (0 : ℚ) ≤ 1 := zero_le_one
  have h := fragmentStep_zero_distance (JSNum.sqrt Rat.sqrt) hs ⟨1, 15, 0⟩ ⟨0, 14, 0⟩
    ⟨1, 2, 0⟩ (Vector3.ofRat ⟨0, -6, 0⟩) 1 he IEEE.sampleFragment.positions
    IEEE.sampleMatrixWorld IEEE_centerPointOf_sample
  ⟨hs, he, IEEE_centerPointOf_sample, h.2.2.2.2.2.2.2.1, h.2.2.2.2.2.2.2.2.2⟩

end Portfolio
